import Mathlib

/-!
Verification of the chat-client TUI core (`src/main.rs`) against its
natural-language specification.

The embedding models the Rust source shallowly:

* `MessageData` mirrors the `MessageData` struct (fields as Lean `String`s).
* User input buffers and parsed command text are `List Char` (`Str`), so that
  the character-level operations of the Rust code (`starts_with`,
  `split_whitespace`, `String::remove`, byte slicing) can be modelled exactly.
* Connection-related effects (frame writes, connect attempts, close frames,
  spawned receive tasks) are recorded in explicit lists inside `ConnState`;
  the outcome of each fallible network operation is supplied as a boolean
  oracle argument (`sendOk`, `connectOk`), since the network is external.
* `send_or_reconnect`, the chat-mode command dispatch, the `Enter` handler and
  the main-loop tick (channel drain + scroll clamp) are translated from
  `src/main.rs` lines 69-115 and 165-366.
* The viewport computation (lines 176-199) is `visibleWindow`; the colour
  decoding of the renderer (lines 202-209) is `decode_color`, modelled at the
  UTF-8 byte level: Rust's `&s[a..b]` panics when `a` or `b` is not a char
  boundary, which the model expresses by returning `none`.
-/

abbrev Str := List Char

/-- Mirrors struct `MessageData` (src/main.rs lines 18-26). -/
structure MessageData where
  msg_type : String
  sender : String
  color : String
  content : String
  room : String
  client_count : Nat
  deriving DecidableEq

/-- Mirrors enum `AppMode` (src/main.rs lines 28-32). -/
inductive AppMode where
  | Nickname
  | Color
  | Chat
  deriving DecidableEq

/-- UTF-8 byte length of a Rust string, as `String::len` computes it. -/
def rustByteLen (l : Str) : Nat := (l.map Char.utf8Size).sum

/-- Drop the characters occupying the first `n` bytes; `none` models the Rust
panic when byte index `n` is out of range or not a character boundary. -/
def dropBytes : Str → Nat → Option Str
  | l, 0 => some l
  | [], _ + 1 => none
  | c :: rest, n + 1 =>
    if c.utf8Size ≤ n + 1 then dropBytes rest (n + 1 - c.utf8Size) else none

/-- Take the characters occupying the first `n` bytes; `none` models the Rust
panic when byte index `n` is out of range or not a character boundary. -/
def takeBytes : Str → Nat → Option Str
  | _, 0 => some []
  | [], _ + 1 => none
  | c :: rest, n + 1 =>
    if c.utf8Size ≤ n + 1 then (takeBytes rest (n + 1 - c.utf8Size)).map (c :: ·)
    else none

/-- Rust byte-range slice `&s[a..b]` (with `a ≤ b`); `none` models the panic
on a non-boundary index. -/
def byteSlice (l : Str) (a b : Nat) : Option Str :=
  (dropBytes l a).bind (fun t => takeBytes t (b - a))

/-- Model of char::to_digit(16): value of one hexadecimal digit. -/
def hexDigitVal (c : Char) : Option Nat :=
  if '0' ≤ c ∧ c ≤ '9' then some (c.toNat - '0'.toNat)
  else if 'a' ≤ c ∧ c ≤ 'f' then some (c.toNat - 'a'.toNat + 10)
  else if 'A' ≤ c ∧ c ≤ 'F' then some (c.toNat - 'A'.toNat + 10)
  else none

/-- Digit-folding loop of `u8::from_str_radix(_, 16)`: accumulates hex digits,
failing on a non-digit or on overflow past `u8::MAX`. -/
def parseHexU8 : Str → Nat → Option Nat
  | [], acc => some acc
  | c :: rest, acc =>
    match hexDigitVal c with
    | some d => if acc * 16 + d ≤ 255 then parseHexU8 rest (acc * 16 + d) else none
    | none => none

/-- Model of u8::from_str_radix(s, 16): an optional leading `+`, then one or more
hexadecimal digits whose value fits in a `u8`. -/
def from_str_radix16_u8 (l : Str) : Option Nat :=
  match l with
  | [] => none
  | c :: rest =>
    if c = '+' then (if rest = [] then none else parseHexU8 rest 0)
    else parseHexU8 (c :: rest) 0

/-- The colour values a rendered message can carry: `Color::Rgb(r,g,b)` or
`Color::White`. -/
inductive TuiColor where
  | rgb (r g b : Nat)
  | white
  deriving DecidableEq

/-- Colour decoding done by the renderer (src/main.rs lines 202-209): if the
byte length is 6, slice bytes `[0..2]`, `[2..4]`, `[4..6]` and parse each as
base-16 with fallback 255; otherwise white. `none` models a slicing panic. -/
def decode_color (color : Str) : Option TuiColor :=
  if rustByteLen color = 6 then
    match byteSlice color 0 2, byteSlice color 2 4, byteSlice color 4 6 with
    | some s1, some s2, some s3 =>
      some (TuiColor.rgb ((from_str_radix16_u8 s1).getD 255)
                         ((from_str_radix16_u8 s2).getD 255)
                         ((from_str_radix16_u8 s3).getD 255))
    | _, _, _ => none
  else some TuiColor.white

lemma rustByteLen_ascii {l : Str} (h : ∀ c ∈ l, c.utf8Size = 1) :
    rustByteLen l = l.length := by
  induction l with
  | nil => rfl
  | cons c rest ih =>
    simp only [rustByteLen, List.map_cons, List.sum_cons, List.length_cons]
    rw [h c (List.mem_cons_self c rest)]
    have := ih (fun x hx => h x (List.mem_cons_of_mem c hx))
    simp only [rustByteLen] at this
    omega

lemma dropBytes_ascii {l : Str} (h : ∀ c ∈ l, c.utf8Size = 1) (n : Nat)
    (hn : n ≤ l.length) : dropBytes l n = some (l.drop n) := by
  induction l generalizing n with
  | nil =>
    cases n with
    | zero => rfl
    | succ m => simp at hn
  | cons c rest ih =>
    cases n with
    | zero => rfl
    | succ m =>
      have hc : c.utf8Size = 1 := h c (List.mem_cons_self c rest)
      simp only [dropBytes, hc]
      rw [if_pos (by omega)]
      have : m + 1 - 1 = m := by omega
      rw [this]
      exact ih (fun x hx => h x (List.mem_cons_of_mem c hx)) m
        (by simp only [List.length_cons] at hn; omega)

lemma takeBytes_ascii {l : Str} (h : ∀ c ∈ l, c.utf8Size = 1) (n : Nat)
    (hn : n ≤ l.length) : takeBytes l n = some (l.take n) := by
  induction l generalizing n with
  | nil =>
    cases n with
    | zero => rfl
    | succ m => simp at hn
  | cons c rest ih =>
    cases n with
    | zero => rfl
    | succ m =>
      have hc : c.utf8Size = 1 := h c (List.mem_cons_self c rest)
      simp only [takeBytes, hc]
      rw [if_pos (by omega)]
      have hm : m + 1 - 1 = m := by omega
      rw [hm]
      rw [ih (fun x hx => h x (List.mem_cons_of_mem c hx)) m
        (by simp only [List.length_cons] at hn; omega)]
      rfl

/-- C6. For a colour string of single-byte characters: if its length is 6,
`decode_color` parses the three 2-character pairs as base-16, substituting 255
(not 0) for an unparsable channel; otherwise it returns the fixed white
default. In particular `decode_color "ff00ff" = rgb 255 0 255`,
`decode_color "zz0000" = rgb 255 0 0`, and `decode_color "abc" = white`. -/
theorem decode_color_spec (l : Str) (h : ∀ c ∈ l, c.utf8Size = 1) :
    ((l.length = 6 →
      decode_color l =
        some (TuiColor.rgb ((from_str_radix16_u8 (l.take 2)).getD 255)
                           ((from_str_radix16_u8 ((l.drop 2).take 2)).getD 255)
                           ((from_str_radix16_u8 (l.drop 4)).getD 255))) ∧
     (l.length ≠ 6 → decode_color l = some TuiColor.white)) ∧
    decode_color "ff00ff".data = some (TuiColor.rgb 255 0 255) ∧
    decode_color "zz0000".data = some (TuiColor.rgb 255 0 0) ∧
    decode_color "abc".data = some TuiColor.white := by
  refine ⟨⟨?_, ?_⟩, by decide, by decide, by decide⟩
  · intro h6
    have hbl : rustByteLen l = 6 := by rw [rustByteLen_ascii h, h6]
    have hd0 : dropBytes l 0 = some l := by cases l <;> rfl
    have hd2 : dropBytes l 2 = some (l.drop 2) := dropBytes_ascii h 2 (by omega)
    have hd4 : dropBytes l 4 = some (l.drop 4) := dropBytes_ascii h 4 (by omega)
    have ht2 : takeBytes l 2 = some (l.take 2) := takeBytes_ascii h 2 (by omega)
    have hmem2 : ∀ c ∈ l.drop 2, c.utf8Size = 1 :=
      fun c hc => h c (List.mem_of_mem_drop hc)
    have hmem4 : ∀ c ∈ l.drop 4, c.utf8Size = 1 :=
      fun c hc => h c (List.mem_of_mem_drop hc)
    have ht2' : takeBytes (l.drop 2) 2 = some ((l.drop 2).take 2) :=
      takeBytes_ascii hmem2 2 (by simp [h6])
    have ht4' : takeBytes (l.drop 4) 2 = some ((l.drop 4).take 2) :=
      takeBytes_ascii hmem4 2 (by simp [h6])
    have htake4 : (l.drop 4).take 2 = l.drop 4 := by
      apply List.take_of_length_le
      simp [h6]
    have hbs1 : byteSlice l 0 2 = some (l.take 2) := by
      unfold byteSlice
      rw [hd0]
      show takeBytes l 2 = some (l.take 2)
      exact ht2
    have hbs2 : byteSlice l 2 4 = some ((l.drop 2).take 2) := by
      unfold byteSlice
      rw [hd2]
      show takeBytes (l.drop 2) 2 = some ((l.drop 2).take 2)
      exact ht2'
    have hbs3 : byteSlice l 4 6 = some (l.drop 4) := by
      unfold byteSlice
      rw [hd4]
      show takeBytes (l.drop 4) 2 = some (l.drop 4)
      rw [ht4', htake4]
    unfold decode_color
    rw [if_pos hbl, hbs1, hbs2, hbs3]
  · intro h6
    have hbl : rustByteLen l ≠ 6 := by rw [rustByteLen_ascii h]; exact h6
    unfold decode_color
    rw [if_neg hbl]

/-- Closed instantiation of `decode_color_spec`. -/
theorem decode_color_spec_witness :
    decode_color "ff00ff".data = some (TuiColor.rgb 255 0 255) :=
  (decode_color_spec "ff00ff".data (by decide)).2.1

/-- C10. The renderer's colour decoding is *not* total: on the colour
string `"aéaaa"` — whose UTF-8 byte length is 6, but whose byte index 2 falls
inside the two-byte character `'é'` — the byte slice `[0..2]` is not on a
character boundary and the Rust code panics, which the model reports as
`none` rather than an RGB triple or the white default. -/
theorem decode_color_panics_on_multibyte :
    rustByteLen "aéaaa".data = 6 ∧ decode_color "aéaaa".data = none := by
  constructor
  · decide
  · decide

/-- Viewport computation of the draw loop (src/main.rs lines 176-199):
`start = if total > height then total.saturating_sub(height).saturating_sub(scroll) else 0`,
`end = start + height`, returning the slice `msgs[start .. min total end]`. -/
def visibleWindow (log : List MessageData) (height scroll : Nat) : List MessageData :=
  let total := log.length
  let start := if height < total then total - height - scroll else 0
  let stop := start + height
  (log.take (min total stop)).drop start

/-- C3. For `0 ≤ scroll ≤ max 0 (total − height)` the visible window
holds exactly `min height total` messages, is a contiguous slice of the log
(so in arrival order), and — when `total > height` — its last message, if it
has one, is the log entry at index `total − 1 − scroll`. -/
theorem visibleWindow_spec (log : List MessageData) (height scroll : Nat)
    (h : scroll ≤ log.length - height) :
    (visibleWindow log height scroll).length = min height log.length ∧
    visibleWindow log height scroll <:+: log ∧
    (height < log.length → ∀ x,
      (visibleWindow log height scroll).getLast? = some x →
      log[log.length - 1 - scroll]? = some x) := by
  have hinfix : visibleWindow log height scroll <:+: log := by
    simp only [visibleWindow]
    have htake : ∀ (n : Nat) (l : List MessageData), l.take n <+: l :=
      List.take_prefix
    exact (List.drop_suffix _ _).isInfix.trans ((htake _ _).isInfix)
  refine ⟨?_, hinfix, ?_⟩
  · simp only [visibleWindow]
    by_cases hlt : height < log.length
    · rw [if_pos hlt]
      simp only [List.length_drop, List.length_take]
      omega
    · rw [if_neg hlt]
      simp only [List.length_drop, List.length_take]
      omega
  · intro hlt x hx
    simp only [visibleWindow] at hx
    rw [if_pos hlt] at hx
    have hstop : min log.length (log.length - height - scroll + height) =
        log.length - scroll := by omega
    rw [hstop] at hx
    have hlen : ((log.take (log.length - scroll)).drop
        (log.length - height - scroll)).length = height := by
      simp only [List.length_drop, List.length_take]
      omega
    have hpos : 0 < height := by
      by_contra hz
      have hh0 : height = 0 := by omega
      subst hh0
      rw [List.getLast?_eq_getElem?, hlen] at hx
      have hnone : ((log.take (log.length - scroll)).drop
          (log.length - 0 - scroll))[(0 : Nat) - 1]? = none := by
        apply List.getElem?_eq_none
        rw [hlen]
      rw [hnone] at hx
      exact Option.noConfusion hx
    rw [List.getLast?_eq_getElem?, hlen, List.getElem?_drop] at hx
    rw [List.getElem?_take_of_lt (by omega)] at hx
    have hidx : log.length - height - scroll + (height - 1) =
        log.length - 1 - scroll := by omega
    rw [hidx] at hx
    exact hx

/-- Closed instantiation of `visibleWindow_spec`. -/
theorem visibleWindow_spec_witness :
    (2 : Nat) ≤ 5 - 2 ∧
    (visibleWindow
        [⟨"chat", "a", "", "m0", "", 0⟩, ⟨"chat", "a", "", "m1", "", 0⟩,
         ⟨"chat", "a", "", "m2", "", 0⟩, ⟨"chat", "a", "", "m3", "", 0⟩,
         ⟨"chat", "a", "", "m4", "", 0⟩] 2 2).length = min 2 5 :=
  ⟨by decide,
   (visibleWindow_spec
      [⟨"chat", "a", "", "m0", "", 0⟩, ⟨"chat", "a", "", "m1", "", 0⟩,
       ⟨"chat", "a", "", "m2", "", 0⟩, ⟨"chat", "a", "", "m3", "", 0⟩,
       ⟨"chat", "a", "", "m4", "", 0⟩] 2 2 (by decide)).1⟩

/-- State of the connection slot together with the effect trace of the
network operations performed on it. `conn_gen` numbers the successive
connection objects held in the `ws_sink` slot; `ingests` records (by
generation) the receive tasks spawned via `spawn_receive_task`; `writes`
records every text frame handed to `ws_sink.send`; `connect_attempts`
records the URLs passed to `connect_ws`; `closes` records on which
connection generations a close frame was sent. -/
structure ConnState where
  log : List MessageData
  tried_reconnect : Bool
  conn_gen : Nat
  ingests : List Nat
  writes : List Str
  connect_attempts : List Str
  closes : List Nat
  deriving DecidableEq

/-- The "Reconnected to server." status message (src/main.rs lines 93-100). -/
def reconnectedMsg : MessageData :=
  { msg_type := "status", sender := "system", color := "00FF00",
    content := "Reconnected to server.", room := "", client_count := 0 }

/-- The "Failed to connect ..." status message (src/main.rs lines 103-110
and 322-333). -/
def failedConnectMsg (url : Str) : MessageData :=
  { msg_type := "status", sender := "system", color := "FF0000",
    content := "Failed to connect to " ++ String.mk url ++ ". Try again.",
    room := "", client_count := 0 }

/-- The "Connected to ..." status message of the `/server` handler
(src/main.rs lines 312-320). -/
def connectedMsg (url : Str) : MessageData :=
  { msg_type := "status", sender := "system", color := "00FF00",
    content := "Connected to " ++ String.mk url ++ ".", room := "",
    client_count := 0 }

/-- Function send_or_reconnect (src/main.rs lines 69-115). `sendOk` is the outcome
of the frame write, `connectOk` the outcome of the connect attempt (if one is
made); `url` is the last known server URL. The commented-out re-send of the
failed message is faithfully absent: on a successful reconnect only the
original (failed) write attempt appears in `writes`. -/
def send_or_reconnect (sendOk connectOk : Bool) (url msg : Str)
    (c : ConnState) : Bool × ConnState :=
  let c1 := { c with writes := c.writes ++ [msg] }
  if sendOk then (true, c1)
  else if c.tried_reconnect = false then
    if connectOk then
      (true, { c1 with conn_gen := c.conn_gen + 1,
                       tried_reconnect := true,
                       ingests := c.ingests ++ [c.conn_gen + 1],
                       connect_attempts := c.connect_attempts ++ [url],
                       log := c.log ++ [reconnectedMsg] })
    else
      (false, { c1 with connect_attempts := c.connect_attempts ++ [url],
                        log := c.log ++ [failedConnectMsg url] })
  else (false, c1)

/-- Whole-application state of the `main` loop (src/main.rs lines 158-163). -/
structure AppState where
  conn : ConnState
  mode : AppMode
  input : Str
  current_room : Str
  scroll : Nat
  client_count : Nat
  server_url : Str
  quit : Bool
  deriving DecidableEq

def quitCmd : Str := ['/', 'q', 'u', 'i', 't']
def clearCmd : Str := ['/', 'c', 'l', 'e', 'a', 'r']
def joinPfx : Str := ['/', 'j', 'o', 'i', 'n', ' ']
def colorPfx : Str := ['/', 'c', 'o', 'l', 'o', 'r', ' ']
def serverPfx : Str := ['/', 's', 'e', 'r', 'v', 'e', 'r', ' ']

/-- Model of str::split_whitespace: whitespace-separated words, empties dropped. -/
def splitWsAux : Str → Str → List Str
  | [], acc => if acc = [] then [] else [acc.reverse]
  | c :: rest, acc =>
    if c.isWhitespace then
      (if acc = [] then splitWsAux rest [] else acc.reverse :: splitWsAux rest [])
    else splitWsAux rest (c :: acc)

def splitWs (l : Str) : List Str := splitWsAux l []

/-- The `/color` normalisation (src/main.rs lines 292-294): remove the first
occurrence of `#`, if any; every other character is kept in place. -/
def removeFirstHash : Str → Str
  | [] => []
  | c :: rest => if c = '#' then rest else c :: removeFirstHash rest

/-- Forwarding a line upstream through the generic send path
(`send_or_reconnect` with the current server URL). -/
def sendMsg (sendOk connectOk : Bool) (msg : Str) (s : AppState) : AppState :=
  { s with conn := (send_or_reconnect sendOk connectOk s.server_url msg s.conn).2 }

/-- Chat-mode dispatch on a submitted line (src/main.rs lines 280-348),
following the source's `if`/`else if` chain in order. -/
def handleChat (sendOk connectOk : Bool) (msg : Str) (s : AppState) : AppState :=
  if msg = quitCmd then { s with quit := true }
  else if msg = clearCmd then { s with conn := { s.conn with log := [] } }
  else if joinPfx.isPrefixOf msg then
    let parts := splitWs msg
    let s1 := if 2 ≤ parts.length then { s with current_room := parts.getD 1 [] } else s
    sendMsg sendOk connectOk msg s1
  else if colorPfx.isPrefixOf msg then
    sendMsg sendOk connectOk (removeFirstHash msg) s
  else if serverPfx.isPrefixOf msg then
    let parts := splitWs msg
    if 2 ≤ parts.length then
      let newUrl := parts.getD 1 []
      if connectOk then
        { s with server_url := newUrl,
                 conn := { s.conn with
                   closes := s.conn.closes ++ [s.conn.conn_gen],
                   connect_attempts := s.conn.connect_attempts ++ [newUrl],
                   conn_gen := s.conn.conn_gen + 1,
                   ingests := s.conn.ingests ++ [s.conn.conn_gen + 1],
                   log := s.conn.log ++ [connectedMsg newUrl] } }
      else
        { s with server_url := newUrl,
                 conn := { s.conn with
                   closes := s.conn.closes ++ [s.conn.conn_gen],
                   connect_attempts := s.conn.connect_attempts ++ [newUrl],
                   log := s.conn.log ++ [failedConnectMsg newUrl] } }
    else sendMsg sendOk connectOk msg s
  else sendMsg sendOk connectOk msg s

/-- The `Enter` key handler (src/main.rs lines 249-349): drain the input
buffer, drop lines that are empty after trimming, otherwise act by mode. -/
def handleEnter (sendOk connectOk : Bool) (s : AppState) : AppState :=
  let msg := s.input
  let s1 := { s with input := [] }
  if msg.all Char.isWhitespace then s1
  else
    match s1.mode with
    | AppMode.Nickname =>
      { s1 with conn := (send_or_reconnect sendOk connectOk s1.server_url msg s1.conn).2,
                mode := AppMode.Color }
    | AppMode.Color =>
      { s1 with conn := (send_or_reconnect sendOk connectOk s1.server_url msg s1.conn).2,
                mode := AppMode.Chat }
    | AppMode.Chat => handleChat sendOk connectOk msg s1

/-- One message dequeued from the ingest channel (src/main.rs lines 169-174):
update `client_count` when strictly positive, then append to the log. -/
def drainOne (s : AppState) (m : MessageData) : AppState :=
  { s with client_count := if 0 < m.client_count then m.client_count else s.client_count,
           conn := { s.conn with log := s.conn.log ++ [m] } }

/-- The scroll clamp at the top of each loop iteration
(src/main.rs lines 176-180). -/
def clampScroll (height : Nat) (s : AppState) : AppState :=
  if s.conn.log.length - height < s.scroll
  then { s with scroll := s.conn.log.length - height }
  else s

/-- The events the main loop reacts to. `enter` carries the outcomes of the
(at most one) frame write and (at most one) connect attempt the handler can
perform; `tick` carries the messages currently available on the channel and
the terminal height of the iteration; `up` carries the height used to
compute `max_scroll`. -/
inductive Event where
  | keyChar (c : Char) (ctrl : Bool)
  | backspace
  | enter (sendOk connectOk : Bool)
  | esc
  | up (height : Nat)
  | down
  | tick (incoming : List MessageData) (height : Nat)
  | otherKey

/-- One main-loop reaction (src/main.rs lines 165-366). -/
def step (e : Event) (s : AppState) : AppState :=
  match e with
  | Event.keyChar c ctrl =>
    if ctrl = true ∧ c = 'c' then { s with quit := true }
    else { s with input := s.input ++ [c] }
  | Event.backspace => { s with input := s.input.dropLast }
  | Event.enter sendOk connectOk => handleEnter sendOk connectOk s
  | Event.esc => { s with quit := true }
  | Event.up height =>
    if s.scroll < s.conn.log.length - height
    then { s with scroll := s.scroll + 1 } else s
  | Event.down => if 0 < s.scroll then { s with scroll := s.scroll - 1 } else s
  | Event.tick incoming height => clampScroll height (incoming.foldl drainOne s)
  | Event.otherKey => s

/-- Sample message used by concrete instantiations. -/
def demoMsg : MessageData :=
  { msg_type := "chat", sender := "bob", color := "00ff00", content := "hi",
    room := "general", client_count := 0 }

/-- Fresh connection state used by concrete instantiations. -/
def c0 : ConnState :=
  { log := [], tried_reconnect := false, conn_gen := 0, ingests := [0],
    writes := [], connect_attempts := [], closes := [] }

/-- Base application state used by concrete instantiations. -/
def baseApp : AppState :=
  { conn := c0, mode := AppMode.Chat, input := [], current_room := "general".data,
    scroll := 0, client_count := 0, server_url := "ws://a".data, quit := false }

/-- C1. A failing frame write with `tried_reconnect = false` makes exactly
one connect attempt to the last known URL. If it succeeds: the connection is
replaced, a new ingest task is spawned on it, the flag becomes true, a
"reconnected" status message is appended, and the call returns true without a
second write of the original text. If it fails: a "failed to connect" status
message is appended and the call returns false. With the flag already true,
the call returns false at once with no connect attempt. -/
theorem send_or_reconnect_spec (c : ConnState) (url msg : Str) (connectOk : Bool)
    (h : c.tried_reconnect = false) :
    (send_or_reconnect false connectOk url msg c).2.connect_attempts
      = c.connect_attempts ++ [url] ∧
    (connectOk = true →
      (send_or_reconnect false connectOk url msg c).1 = true ∧
      (send_or_reconnect false connectOk url msg c).2.tried_reconnect = true ∧
      (send_or_reconnect false connectOk url msg c).2.conn_gen = c.conn_gen + 1 ∧
      (send_or_reconnect false connectOk url msg c).2.ingests
        = c.ingests ++ [c.conn_gen + 1] ∧
      (send_or_reconnect false connectOk url msg c).2.log
        = c.log ++ [reconnectedMsg] ∧
      (send_or_reconnect false connectOk url msg c).2.writes
        = c.writes ++ [msg]) ∧
    (connectOk = false →
      (send_or_reconnect false connectOk url msg c).1 = false ∧
      (send_or_reconnect false connectOk url msg c).2.log
        = c.log ++ [failedConnectMsg url] ∧
      (send_or_reconnect false connectOk url msg c).2.tried_reconnect = false) ∧
    (∀ c2 : ConnState, c2.tried_reconnect = true →
      send_or_reconnect false connectOk url msg c2
        = (false, { c2 with writes := c2.writes ++ [msg] })) := by
  refine ⟨?_, ?_, ?_, fun c2 h2 => by simp [send_or_reconnect, h2]⟩ <;>
    cases connectOk <;> simp [send_or_reconnect, h]

/-- Closed instantiation of `send_or_reconnect_spec`. -/
theorem send_or_reconnect_spec_witness :
    (send_or_reconnect false true "ws://a".data "hello".data c0).2.connect_attempts
      = c0.connect_attempts ++ ["ws://a".data] :=
  (send_or_reconnect_spec c0 "ws://a".data "hello".data true (by decide)).1

lemma sor_tried_mono (sendOk connectOk : Bool) (url msg : Str) (c : ConnState)
    (h : c.tried_reconnect = true) :
    (send_or_reconnect sendOk connectOk url msg c).2.tried_reconnect = true := by
  cases sendOk <;> cases connectOk <;> simp [send_or_reconnect, h]

lemma sendMsg_tried_mono (so co : Bool) (msg : Str) (s : AppState)
    (h : s.conn.tried_reconnect = true) :
    (sendMsg so co msg s).conn.tried_reconnect = true :=
  sor_tried_mono so co s.server_url msg s.conn h

lemma handleChat_tried_mono (so co : Bool) (msg : Str) (s : AppState)
    (h : s.conn.tried_reconnect = true) :
    (handleChat so co msg s).conn.tried_reconnect = true := by
  simp only [handleChat]
  split
  · exact h
  split
  · exact h
  split
  · apply sendMsg_tried_mono
    split
    · exact h
    · exact h
  split
  · exact sendMsg_tried_mono _ _ _ _ h
  split
  · split
    · split
      · exact h
      · exact h
    · exact sendMsg_tried_mono _ _ _ _ h
  · exact sendMsg_tried_mono _ _ _ _ h

lemma handleEnter_tried_mono (so co : Bool) (s : AppState)
    (h : s.conn.tried_reconnect = true) :
    (handleEnter so co s).conn.tried_reconnect = true := by
  simp only [handleEnter]
  split
  · exact h
  split
  · exact sor_tried_mono so co _ _ _ h
  · exact sor_tried_mono so co _ _ _ h
  · exact handleChat_tried_mono so co _ _ h

lemma foldl_drainOne_tried (incoming : List MessageData) (s : AppState) :
    (incoming.foldl drainOne s).conn.tried_reconnect = s.conn.tried_reconnect := by
  induction incoming generalizing s with
  | nil => rfl
  | cons m rest ih => rw [List.foldl_cons, ih]; rfl

lemma clampScroll_tried (height : Nat) (s : AppState) :
    (clampScroll height s).conn.tried_reconnect = s.conn.tried_reconnect := by
  unfold clampScroll
  split <;> rfl

/-- C2. Once `tried_reconnect` is true it stays true across every
main-loop operation — in particular across a manual `/server` reconnect —
and from then on every failing frame write returns false without making any
automatic connect attempt. -/
theorem tried_reconnect_monotone (s : AppState) (e : Event)
    (h : s.conn.tried_reconnect = true) :
    (step e s).conn.tried_reconnect = true ∧
    (∀ (connectOk : Bool) (url msg : Str),
      (send_or_reconnect false connectOk url msg s.conn).1 = false ∧
      (send_or_reconnect false connectOk url msg s.conn).2.connect_attempts
        = s.conn.connect_attempts) := by
  refine ⟨?_, fun connectOk url msg => by simp [send_or_reconnect, h]⟩
  cases e with
  | keyChar c ctrl =>
    simp only [step]
    split
    · exact h
    · exact h
  | backspace => exact h
  | enter so co => exact handleEnter_tried_mono so co s h
  | esc => exact h
  | up height =>
    simp only [step]
    split
    · exact h
    · exact h
  | down =>
    simp only [step]
    split
    · exact h
    · exact h
  | tick incoming height =>
    show (clampScroll height (incoming.foldl drainOne s)).conn.tried_reconnect = true
    rw [clampScroll_tried, foldl_drainOne_tried]
    exact h
  | otherKey => exact h

/-- Closed instantiation of `tried_reconnect_monotone`: a manual `/server`
reconnect leaves the flag true. -/
theorem tried_reconnect_monotone_witness :
    (step (Event.enter false true)
      { baseApp with conn := { c0 with tried_reconnect := true },
                     input := "/server ws://b".data }).conn.tried_reconnect
      = true :=
  (tried_reconnect_monotone
    { baseApp with conn := { c0 with tried_reconnect := true },
                   input := "/server ws://b".data }
    (Event.enter false true) (by decide)).1

/-- C9. For a non-empty submitted line the handshake transition does not
depend on the send outcome: Nickname → Color and Color → Chat for every
oracle outcome, although a send with a failing write and failing reconnect
returns false. -/
theorem handshake_transition_unconditional (s : AppState) (so co : Bool)
    (h : s.input.all Char.isWhitespace = false) :
    (s.mode = AppMode.Nickname → (step (Event.enter so co) s).mode = AppMode.Color) ∧
    (s.mode = AppMode.Color → (step (Event.enter so co) s).mode = AppMode.Chat) ∧
    (∀ (c : ConnState) (url msg : Str),
      (send_or_reconnect false false url msg c).1 = false) := by
  refine ⟨?_, ?_, ?_⟩
  · intro hm
    show (handleEnter so co s).mode = AppMode.Color
    simp [handleEnter, h, hm]
  · intro hm
    show (handleEnter so co s).mode = AppMode.Chat
    simp [handleEnter, h, hm]
  · intro c url msg
    simp only [send_or_reconnect]
    split
    · simp_all
    · split <;> rfl

/-- Closed instantiation of `handshake_transition_unconditional`. -/
theorem handshake_transition_unconditional_witness :
    (step (Event.enter false false)
      { baseApp with mode := AppMode.Nickname, input := "alice".data }).mode
      = AppMode.Color :=
  (handshake_transition_unconditional
    { baseApp with mode := AppMode.Nickname, input := "alice".data }
    false false (by decide)).1 (by decide)

lemma sor_log_extends (so co : Bool) (url msg : Str) (c : ConnState) :
    c.log <+: (send_or_reconnect so co url msg c).2.log := by
  unfold send_or_reconnect
  split
  · exact List.prefix_refl _
  · split
    · split
      · exact List.prefix_append _ _
      · exact List.prefix_append _ _
    · exact List.prefix_refl _

/-- C4 (amended). On a non-empty submission in the Nickname phase the
nickname text is forwarded via the send-with-reconnect-fallback path and the
phase becomes Color, but — contrary to the claim — the message log is *not*
cleared: the old log is always a prefix of the new one. -/
theorem nickname_submit_spec (s : AppState) (so co : Bool)
    (h : s.input.all Char.isWhitespace = false)
    (hm : s.mode = AppMode.Nickname) :
    (step (Event.enter so co) s).conn
      = (send_or_reconnect so co s.server_url s.input s.conn).2 ∧
    (step (Event.enter so co) s).mode = AppMode.Color ∧
    (step (Event.enter so co) s).input = [] ∧
    s.conn.log <+: (step (Event.enter so co) s).conn.log := by
  have hstep : step (Event.enter so co) s
      = { s with input := [],
                 conn := (send_or_reconnect so co s.server_url s.input s.conn).2,
                 mode := AppMode.Color } := by
    show handleEnter so co s = _
    simp [handleEnter, h, hm]
  refine ⟨by rw [hstep], by rw [hstep], by rw [hstep], ?_⟩
  rw [hstep]
  exact sor_log_extends so co s.server_url s.input s.conn

/-- Closed instantiation of `nickname_submit_spec`. -/
theorem nickname_submit_spec_witness :
    (step (Event.enter true true)
      { baseApp with mode := AppMode.Nickname, input := "alice".data }).mode
      = AppMode.Color :=
  (nickname_submit_spec
    { baseApp with mode := AppMode.Nickname, input := "alice".data }
    true true (by decide) (by decide)).2.1

/-- C4 is false as stated: submitting a nickname does not clear the
message log — with one message in the log and a successful send, the log
still holds that message afterwards. -/
theorem nickname_submit_does_not_clear_log :
    (step (Event.enter true true)
      { baseApp with mode := AppMode.Nickname, input := "alice".data,
                     conn := { c0 with log := [demoMsg] } }).conn.log
      = [demoMsg] ∧ ([demoMsg] : List MessageData) ≠ [] := by
  refine ⟨by decide, by decide⟩

lemma splitWsAux_nows (l : Str) (h : ∀ c ∈ l, c.isWhitespace = false) :
    ∀ acc : Str, splitWsAux l acc
      = if (acc.reverse ++ l) = [] then [] else [acc.reverse ++ l] := by
  induction l with
  | nil =>
    intro acc
    simp [splitWsAux]
  | cons c rest ih =>
    intro acc
    have hc : c.isWhitespace = false := h c (List.mem_cons_self c rest)
    have hrest : ∀ x ∈ rest, x.isWhitespace = false :=
      fun x hx => h x (List.mem_cons_of_mem c hx)
    simp only [splitWsAux, hc, Bool.false_eq_true, if_false]
    rw [ih hrest (c :: acc)]
    have h1 : (c :: acc).reverse ++ rest = acc.reverse ++ c :: rest := by
      simp
    rw [h1]

lemma splitWsAux_server (url : Str) :
    splitWsAux (serverPfx ++ url) []
      = ['/', 's', 'e', 'r', 'v', 'e', 'r'] :: splitWsAux url [] := rfl

lemma splitWs_server (url : Str) (hne : url ≠ [])
    (hnw : ∀ c ∈ url, c.isWhitespace = false) :
    splitWs (serverPfx ++ url) = [['/', 's', 'e', 'r', 'v', 'e', 'r'], url] := by
  show splitWsAux (serverPfx ++ url) [] = _
  rw [splitWsAux_server, splitWsAux_nows url hnw []]
  simp [hne]

lemma server_input_not_ws (url : Str) :
    (serverPfx ++ url).all Char.isWhitespace = false := rfl

lemma server_input_ne_quit (url : Str) : serverPfx ++ url ≠ quitCmd := by
  intro hcontra
  have := congrArg List.length hcontra
  simp [serverPfx, quitCmd] at this

lemma server_input_ne_clear (url : Str) : serverPfx ++ url ≠ clearCmd := by
  intro hcontra
  have := congrArg List.length hcontra
  simp [serverPfx, clearCmd] at this

lemma join_not_pfx_server (url : Str) :
    joinPfx.isPrefixOf (serverPfx ++ url) = false := rfl

lemma color_not_pfx_server (url : Str) :
    colorPfx.isPrefixOf (serverPfx ++ url) = false := rfl

lemma server_pfx_server (url : Str) :
    serverPfx.isPrefixOf (serverPfx ++ url) = true := by
  simp [serverPfx, List.isPrefixOf]

/-- C5 (amended). Submitting `/server <url>` (with a second token) in the
Chatting phase never forwards the line upstream; a close frame is sent on the
current connection, one connect attempt to `<url>` is made, and the stored
server URL is updated *unconditionally, before the attempt* — also when the
attempt fails. On success the connection is replaced, a fresh ingest task is
spawned and a "connected" status message is appended; on failure a "failed to
connect" status message is appended and the old connection slot is kept. The
input line is consumed with no phase change. -/
theorem server_cmd_spec (s : AppState) (so co : Bool) (url : Str)
    (hm : s.mode = AppMode.Chat)
    (hi : s.input = serverPfx ++ url)
    (hne : url ≠ [])
    (hnw : ∀ c ∈ url, c.isWhitespace = false) :
    (step (Event.enter so co) s).conn.writes = s.conn.writes ∧
    (step (Event.enter so co) s).conn.closes
      = s.conn.closes ++ [s.conn.conn_gen] ∧
    (step (Event.enter so co) s).conn.connect_attempts
      = s.conn.connect_attempts ++ [url] ∧
    (step (Event.enter so co) s).server_url = url ∧
    (co = true →
      (step (Event.enter so co) s).conn.conn_gen = s.conn.conn_gen + 1 ∧
      (step (Event.enter so co) s).conn.ingests
        = s.conn.ingests ++ [s.conn.conn_gen + 1] ∧
      (step (Event.enter so co) s).conn.log
        = s.conn.log ++ [connectedMsg url]) ∧
    (co = false →
      (step (Event.enter so co) s).conn.conn_gen = s.conn.conn_gen ∧
      (step (Event.enter so co) s).conn.ingests = s.conn.ingests ∧
      (step (Event.enter so co) s).conn.log
        = s.conn.log ++ [failedConnectMsg url]) ∧
    (step (Event.enter so co) s).mode = AppMode.Chat ∧
    (step (Event.enter so co) s).input = [] := by
  have hchat : step (Event.enter so co) s
      = handleChat so co (serverPfx ++ url) { s with input := [] } := by
    show handleEnter so co s = _
    simp only [handleEnter, hi, server_input_not_ws, Bool.false_eq_true,
      if_false, hm]
  have hbody : handleChat so co (serverPfx ++ url) { s with input := [] }
      = (if co = true then
          { s with input := [],
                   server_url := url,
                   conn := { s.conn with
                     closes := s.conn.closes ++ [s.conn.conn_gen],
                     connect_attempts := s.conn.connect_attempts ++ [url],
                     conn_gen := s.conn.conn_gen + 1,
                     ingests := s.conn.ingests ++ [s.conn.conn_gen + 1],
                     log := s.conn.log ++ [connectedMsg url] } }
        else
          { s with input := [],
                   server_url := url,
                   conn := { s.conn with
                     closes := s.conn.closes ++ [s.conn.conn_gen],
                     connect_attempts := s.conn.connect_attempts ++ [url],
                     log := s.conn.log ++ [failedConnectMsg url] } }) := by
    simp only [handleChat]
    rw [if_neg (server_input_ne_quit url), if_neg (server_input_ne_clear url)]
    rw [join_not_pfx_server, color_not_pfx_server, server_pfx_server]
    simp only [Bool.false_eq_true, if_false, if_true]
    rw [splitWs_server url hne hnw]
    norm_num
  rw [hchat, hbody]
  cases co <;> simp [hm]

/-- Closed instantiation of `server_cmd_spec`. -/
theorem server_cmd_spec_witness :
    (step (Event.enter false true)
      { baseApp with input := "/server ws://b".data }).server_url
      = "ws://b".data :=
  (server_cmd_spec { baseApp with input := "/server ws://b".data } false true
    "ws://b".data (by decide) (by decide) (by decide) (by decide)).2.2.2.1

/-- C5 is false as stated: the stored server URL is updated even when the
connect attempt fails. With stored URL `ws://a`, submitting `/server ws://b`
while the connect attempt fails appends the "failed to connect" message, yet
the stored URL has already changed to `ws://b`. -/
theorem server_url_updated_despite_failure :
    (step (Event.enter false false)
      { baseApp with input := "/server ws://b".data }).conn.log
      = baseApp.conn.log ++ [failedConnectMsg "ws://b".data] ∧
    (step (Event.enter false false)
      { baseApp with input := "/server ws://b".data }).server_url
      = "ws://b".data ∧
    baseApp.server_url = "ws://a".data ∧
    "ws://b".data ≠ "ws://a".data := by
  refine ⟨by decide, by decide, by decide, by decide⟩

lemma sor_writes (so co : Bool) (url msg : Str) (c : ConnState) :
    (send_or_reconnect so co url msg c).2.writes = c.writes ++ [msg] := by
  unfold send_or_reconnect
  split
  · rfl
  · split
    · split <;> rfl
    · rfl

lemma color_input_not_ws (rest : Str) :
    (colorPfx ++ rest).all Char.isWhitespace = false := rfl

lemma color_input_ne_quit (rest : Str) : colorPfx ++ rest ≠ quitCmd := by
  intro hcontra
  have := congrArg List.length hcontra
  simp [colorPfx, quitCmd] at this

lemma color_input_ne_clear (rest : Str) : colorPfx ++ rest ≠ clearCmd := by
  intro hcontra
  have := congrArg List.length hcontra
  simp [colorPfx, clearCmd] at this

lemma join_not_pfx_color (rest : Str) :
    joinPfx.isPrefixOf (colorPfx ++ rest) = false := rfl

lemma color_pfx_color (rest : Str) :
    colorPfx.isPrefixOf (colorPfx ++ rest) = true := by
  simp [colorPfx, List.isPrefixOf]

lemma removeFirstHash_not_mem (l : Str) (h : '#' ∉ l) : removeFirstHash l = l := by
  induction l with
  | nil => rfl
  | cons c rest ih =>
    simp only [List.mem_cons, not_or] at h
    obtain ⟨h1, h2⟩ := h
    simp only [removeFirstHash]
    rw [if_neg (fun hc => h1 hc.symm), ih h2]

lemma removeFirstHash_append (a b : Str) (h : '#' ∉ a) :
    removeFirstHash (a ++ '#' :: b) = a ++ b := by
  induction a with
  | nil => simp [removeFirstHash]
  | cons c rest ih =>
    simp only [List.mem_cons, not_or] at h
    obtain ⟨h1, h2⟩ := h
    simp only [List.cons_append, removeFirstHash]
    rw [if_neg (fun hc => h1 hc.symm)]
    show c :: removeFirstHash (rest ++ '#' :: b) = c :: (rest ++ b)
    rw [ih h2]

/-- C7. A line starting with `/color ` submitted in the Chatting phase is
forwarded through the generic send path with exactly the first `#` (if any)
removed and every other character unchanged; in particular `/color #ff00ff`
is forwarded as `/color ff00ff`. -/
theorem color_cmd_spec (s : AppState) (so co : Bool) (rest : Str)
    (hm : s.mode = AppMode.Chat)
    (hi : s.input = colorPfx ++ rest) :
    (step (Event.enter so co) s).conn
      = (send_or_reconnect so co s.server_url (removeFirstHash s.input) s.conn).2 ∧
    (step (Event.enter so co) s).conn.writes
      = s.conn.writes ++ [removeFirstHash s.input] ∧
    ('#' ∉ s.input → removeFirstHash s.input = s.input) ∧
    (∀ a b : Str, s.input = a ++ '#' :: b → '#' ∉ a →
      removeFirstHash s.input = a ++ b) ∧
    removeFirstHash "/color #ff00ff".data = "/color ff00ff".data ∧
    (step (Event.enter so co) s).mode = AppMode.Chat := by
  have hchat : step (Event.enter so co) s
      = handleChat so co (colorPfx ++ rest) { s with input := [] } := by
    show handleEnter so co s = _
    simp only [handleEnter, hi, color_input_not_ws, Bool.false_eq_true,
      if_false, hm]
  have hbody : handleChat so co (colorPfx ++ rest) { s with input := [] }
      = sendMsg so co (removeFirstHash (colorPfx ++ rest)) { s with input := [] } := by
    simp only [handleChat]
    rw [if_neg (color_input_ne_quit rest), if_neg (color_input_ne_clear rest)]
    rw [join_not_pfx_color, color_pfx_color]
    simp only [Bool.false_eq_true, if_false, if_true]
  refine ⟨?_, ?_, removeFirstHash_not_mem s.input,
    fun a b heq hna => by rw [heq]; exact removeFirstHash_append a b hna,
    by decide, ?_⟩
  · rw [hchat, hbody, hi]
    rfl
  · rw [hchat, hbody, hi]
    exact sor_writes so co _ _ _
  · rw [hchat, hbody]
    exact hm

/-- Closed instantiation of `color_cmd_spec`. -/
theorem color_cmd_spec_witness :
    (step (Event.enter true false)
      { baseApp with input := "/color #ff00ff".data }).conn.writes
      = baseApp.conn.writes ++ [removeFirstHash "/color #ff00ff".data] :=
  (color_cmd_spec { baseApp with input := "/color #ff00ff".data } true false
    "#ff00ff".data (by decide) (by decide)).2.1

/-- C8 (amended). Submitting `/clear` in the Chatting phase empties the
log, sends nothing upstream, and keeps the phase — but the scroll offset is
*not* reset by the handler itself; it keeps its previous value and is only
clamped to 0 by the next tick of the main loop (while the log is empty). Any
later viewport computation on the emptied log is empty. -/
theorem clear_cmd_spec (s : AppState) (so co : Bool)
    (hm : s.mode = AppMode.Chat)
    (hi : s.input = clearCmd) :
    (step (Event.enter so co) s).conn.log = [] ∧
    (step (Event.enter so co) s).scroll = s.scroll ∧
    (step (Event.enter so co) s).conn.writes = s.conn.writes ∧
    (step (Event.enter so co) s).mode = AppMode.Chat ∧
    (∀ height scroll2 : Nat,
      visibleWindow (step (Event.enter so co) s).conn.log height scroll2 = []) ∧
    (∀ height : Nat,
      (clampScroll height (step (Event.enter so co) s)).scroll = 0) := by
  have hstep : step (Event.enter so co) s
      = { s with input := [], conn := { s.conn with log := [] } } := by
    show handleEnter so co s = _
    simp only [handleEnter, hi, hm]
    rw [show clearCmd.all Char.isWhitespace = false from rfl]
    simp only [Bool.false_eq_true, if_false]
    simp only [handleChat]
    rw [if_neg (show clearCmd ≠ quitCmd by decide)]
    simp
  refine ⟨by rw [hstep], by rw [hstep], by rw [hstep], ?_, ?_, ?_⟩
  · rw [hstep]
    exact hm
  · intro height scroll2
    rw [hstep]
    show visibleWindow [] height scroll2 = []
    simp [visibleWindow]
  · intro height
    rw [hstep]
    dsimp only [clampScroll]
    simp only [List.length_nil, Nat.zero_sub]
    split
    · rfl
    · next hcond =>
        show s.scroll = 0
        omega

/-- Closed instantiation of `clear_cmd_spec`. -/
theorem clear_cmd_spec_witness :
    (step (Event.enter false false)
      { baseApp with input := clearCmd,
                     conn := { c0 with log := [demoMsg] } }).conn.log = [] :=
  (clear_cmd_spec
    { baseApp with input := clearCmd, conn := { c0 with log := [demoMsg] } }
    false false (by decide) (by decide)).1

/-- C8 is false as stated: `/clear` does not reset the scroll offset to
0 — with `scroll = 3` beforehand, the state right after the handler still has
`scroll = 3` (only the next tick's clamp pulls it to 0). -/
theorem clear_does_not_reset_scroll :
    (step (Event.enter false false)
      { baseApp with input := clearCmd, scroll := 3,
                     conn := { c0 with
                       log := [demoMsg, demoMsg, demoMsg, demoMsg] } }).scroll
      = 3 ∧ (3 : Nat) ≠ 0 := by
  refine ⟨by decide, by decide⟩
